import Mathlib

/-!
Verification development for the pool dispatcher of a multi-asset AMM
(`src/ref-exchange/src/pool.rs`).

The dispatcher is a closed tagged union over four curve variants
(SimplePool, StableSwapPool, RatedSwapPool, DegenSwapPool); it routes each
uniform operation to the active variant and expresses per-variant
capability gaps by panicking (Rust's `unimplemented!()`), which we embed as
the error value `PoolError.UnsupportedOperation`.  Only the dispatcher is
part of the analysed sources; the per-variant pool implementations and the
share ledger are modelled from the specification, as marked in the
individual doc comments.  Rust's panicking paths become `Except` error
values.

Account identifiers (Rust type AccountId) are opaque unique strings
supplied by the host and are embedded as `String`; balances (Rust type
u128) are embedded as `Nat`, since the host supplies arbitrary-precision
non-negative integers and overflow is specified to be a fatal error rather
than a silent wraparound.
-/

/-- Fee rates are expressed in parts of `FEE_DIVISOR`. -/
def FEE_DIVISOR : Nat := 10000

/-- Modelled from the spec: rate / risk-factor normalization denominator used
by the rate-adjusted and risk-capped variants (fixed-point factor of the
oracle-supplied exchange rates). -/
def RATE_DENOM : Nat := 100000000

/-- Share price precision: prices are reported scaled by 1e8. -/
def SHARE_PRICE_SCALE : Nat := 100000000

/-- Error kinds of the pool core.  Rust panics (`unimplemented!()`,
`assert!` failures, ledger precondition violations) are embedded as values
of this type; every failure aborts the whole operation with no partial
state mutation. -/
inductive PoolError where
  | UnsupportedOperation
  | SlippageExceeded
  | InvalidToken
  | InsufficientShares
  | NotRegistered
  | NonZeroShares
  | FeeTooHigh
  | TvlLimitExceeded
  | InvalidDegenPrice
  | InsufficientReserve
deriving DecidableEq

/-- Admin fee split passed into swap / liquidity operations per call;
both parts are fractions of the pool's total fee. -/
structure AdminFees where
  exchange_fee : Nat
  referral_fee : Nat
deriving DecidableEq

/-- Cumulative per-token swap volume counters. -/
structure SwapVolume where
  input : Nat
  output : Nat
deriving DecidableEq

/-- TVL limit configuration for one risk-capped pool, supplied by the
external risk-configuration store keyed by pool id. -/
structure DegenPoolLimitInfo where
  tvl_limit : Nat
deriving DecidableEq

/-- Modelled from the spec: the per-pool fungible share ledger (the
per-variant pool implementations holding it are not among the analysed
sources).  `balances` is an association list from registered accounts to
their share balances; `total_shares` is the outstanding supply. -/
structure ShareLedger where
  balances : List (String × Nat)
  total_shares : Nat
deriving DecidableEq

/-- First-occurrence lookup in the balances association list. -/
def lookup_balance : List (String × Nat) → String → Option Nat
  | [], _ => none
  | (b, v) :: rest, a => if b = a then some v else lookup_balance rest a

/-- Replace the first occurrence of a key with a new balance. -/
def set_balance : List (String × Nat) → String → Nat → List (String × Nat)
  | [], _, _ => []
  | (b, v) :: rest, a, n => if b = a then (b, n) :: rest else (b, v) :: set_balance rest a n

/-- Remove the first occurrence of a key. -/
def remove_account : List (String × Nat) → String → List (String × Nat)
  | [], _ => []
  | (b, v) :: rest, a => if b = a then rest else (b, v) :: remove_account rest a

/-- Sum of all per-holder balances. -/
def sum_balances : List (String × Nat) → Nat
  | [] => 0
  | (_, v) :: rest => v + sum_balances rest

/-- The share-ledger invariant: the sum of all per-holder balances equals
the total outstanding share supply. -/
abbrev ShareLedger.inv (l : ShareLedger) : Prop :=
  sum_balances l.balances = l.total_shares

/-- Modelled from the spec: registering an account inserts it with a zero
balance; registering an already-registered account leaves the ledger
unchanged. -/
def ShareLedger.share_register (l : ShareLedger) (account_id : String) :
    Except PoolError ShareLedger :=
  match lookup_balance l.balances account_id with
  | some _ => .ok l
  | none => .ok ⟨(account_id, 0) :: l.balances, l.total_shares⟩

/-- Modelled from the spec: unregistering requires the account's balance to
be exactly zero. -/
def ShareLedger.share_unregister (l : ShareLedger) (account_id : String) :
    Except PoolError ShareLedger :=
  match lookup_balance l.balances account_id with
  | none => .error .NotRegistered
  | some v =>
    if v = 0 then .ok ⟨remove_account l.balances account_id, l.total_shares⟩
    else .error .NonZeroShares

/-- Modelled from the spec: minting credits a registered account and grows
the total supply by the same amount (an account must be registered before
it can receive a nonzero balance). -/
def ShareLedger.mint_shares (l : ShareLedger) (account_id : String) (amount : Nat) :
    Except PoolError ShareLedger :=
  match lookup_balance l.balances account_id with
  | none => .error .NotRegistered
  | some v => .ok ⟨set_balance l.balances account_id (v + amount), l.total_shares + amount⟩

/-- Modelled from the spec: burning debits a registered account (failing
with `InsufficientShares` when its balance is smaller) and shrinks the
total supply by the same amount. -/
def ShareLedger.burn_shares (l : ShareLedger) (account_id : String) (amount : Nat) :
    Except PoolError ShareLedger :=
  match lookup_balance l.balances account_id with
  | none => .error .NotRegistered
  | some v =>
    if amount ≤ v then
      .ok ⟨set_balance l.balances account_id (v - amount), l.total_shares - amount⟩
    else .error .InsufficientShares

/-- Modelled from the spec: transfers fail with `InsufficientShares` when
the sender's balance is insufficient and with `NotRegistered` when the
receiver is not registered; otherwise the amount moves between the two
entries and the total supply is unchanged. -/
def ShareLedger.share_transfer (l : ShareLedger) (sender_id receiver_id : String)
    (amount : Nat) : Except PoolError ShareLedger :=
  match lookup_balance l.balances sender_id with
  | none => .error .InsufficientShares
  | some vs =>
    if amount ≤ vs then
      match lookup_balance l.balances receiver_id with
      | none => .error .NotRegistered
      | some _ =>
        let bs1 := set_balance l.balances sender_id (vs - amount)
        match lookup_balance bs1 receiver_id with
        | none => .error .NotRegistered
        | some vr => .ok ⟨set_balance bs1 receiver_id (vr + amount), l.total_shares⟩
    else .error .InsufficientShares

theorem sum_set_balance {bs : List (String × Nat)} {a : String} {v n : Nat}
    (h : lookup_balance bs a = some v) :
    sum_balances (set_balance bs a n) + v = sum_balances bs + n := by
  induction bs with
  | nil => simp [lookup_balance] at h
  | cons hd tl ih =>
    obtain ⟨b, w⟩ := hd
    simp only [lookup_balance] at h
    by_cases hb : b = a
    · rw [if_pos hb] at h
      injection h with h
      subst h
      simp only [set_balance, if_pos hb, sum_balances]
      omega
    · rw [if_neg hb] at h
      have := ih h
      simp only [set_balance, if_neg hb, sum_balances]
      omega

theorem lookup_le_sum {bs : List (String × Nat)} {a : String} {v : Nat}
    (h : lookup_balance bs a = some v) : v ≤ sum_balances bs := by
  induction bs with
  | nil => simp [lookup_balance] at h
  | cons hd tl ih =>
    obtain ⟨b, w⟩ := hd
    simp only [lookup_balance] at h
    by_cases hb : b = a
    · rw [if_pos hb] at h
      injection h with h
      subst h
      simp only [sum_balances]
      omega
    · rw [if_neg hb] at h
      have := ih h
      simp only [sum_balances]
      omega

theorem sum_remove_account {bs : List (String × Nat)} {a : String} {v : Nat}
    (h : lookup_balance bs a = some v) :
    sum_balances (remove_account bs a) + v = sum_balances bs := by
  induction bs with
  | nil => simp [lookup_balance] at h
  | cons hd tl ih =>
    obtain ⟨b, w⟩ := hd
    simp only [lookup_balance] at h
    by_cases hb : b = a
    · rw [if_pos hb] at h
      injection h with h
      subst h
      simp only [remove_account, if_pos hb, sum_balances]
      omega
    · rw [if_neg hb] at h
      have := ih h
      simp only [remove_account, if_neg hb, sum_balances]
      omega

theorem lookup_set_balance {bs : List (String × Nat)} {a b : String} {v n : Nat}
    (h : lookup_balance bs a = some v) :
    lookup_balance (set_balance bs a n) b = if b = a then some n else lookup_balance bs b := by
  induction bs with
  | nil => simp [lookup_balance] at h
  | cons hd tl ih =>
    obtain ⟨c, w⟩ := hd
    simp only [lookup_balance] at h
    by_cases hc : c = a
    · subst hc
      simp only [set_balance, if_pos rfl, lookup_balance]
      by_cases hcb : c = b
      · subst hcb
        simp [lookup_balance]
      · have hbc : ¬ b = c := fun hx => hcb hx.symm
        simp only [lookup_balance, if_neg hcb, if_neg hbc]
    · rw [if_neg hc] at h
      simp only [set_balance, if_neg hc, lookup_balance]
      by_cases hcb : c = b
      · subst hcb
        have hbc : ¬ c = a := hc
        simp [lookup_balance, if_neg hbc]
      · simp only [lookup_balance, if_neg hcb]
        exact ih h

theorem share_register_inv {l l' : ShareLedger} {a : String}
    (h : l.share_register a = .ok l') (hinv : l.inv) : l'.inv := by
  unfold ShareLedger.share_register at h
  cases hl : lookup_balance l.balances a with
  | some v => rw [hl] at h; cases h; exact hinv
  | none =>
    rw [hl] at h
    cases h
    simp only [ShareLedger.inv, sum_balances] at hinv ⊢
    omega

theorem share_unregister_inv {l l' : ShareLedger} {a : String}
    (h : l.share_unregister a = .ok l') (hinv : l.inv) : l'.inv := by
  unfold ShareLedger.share_unregister at h
  cases hl : lookup_balance l.balances a with
  | none => rw [hl] at h; cases h
  | some v =>
    rw [hl] at h
    by_cases hv : v = 0
    · subst hv
      simp at h
      cases h
      have h1 := sum_remove_account hl
      simp only [ShareLedger.inv] at hinv ⊢
      omega
    · simp [hv] at h

theorem mint_shares_inv {l l' : ShareLedger} {a : String} {amount : Nat}
    (h : l.mint_shares a amount = .ok l') (hinv : l.inv) : l'.inv := by
  unfold ShareLedger.mint_shares at h
  cases hl : lookup_balance l.balances a with
  | none => rw [hl] at h; cases h
  | some v =>
    rw [hl] at h
    cases h
    have := sum_set_balance (n := v + amount) hl
    simp [ShareLedger.inv] at hinv ⊢
    omega

theorem mint_shares_total {l l' : ShareLedger} {a : String} {amount : Nat}
    (h : l.mint_shares a amount = .ok l') : l'.total_shares = l.total_shares + amount := by
  unfold ShareLedger.mint_shares at h
  cases hl : lookup_balance l.balances a with
  | none => rw [hl] at h; cases h
  | some v => rw [hl] at h; cases h; rfl

theorem mint_shares_error {l : ShareLedger} {a : String} {amount : Nat} {e : PoolError}
    (h : l.mint_shares a amount = .error e) : e = .NotRegistered := by
  unfold ShareLedger.mint_shares at h
  cases hl : lookup_balance l.balances a with
  | none => rw [hl] at h; cases h; rfl
  | some v => rw [hl] at h; cases h

theorem burn_shares_inv {l l' : ShareLedger} {a : String} {amount : Nat}
    (h : l.burn_shares a amount = .ok l') (hinv : l.inv) : l'.inv := by
  unfold ShareLedger.burn_shares at h
  cases hl : lookup_balance l.balances a with
  | none => rw [hl] at h; cases h
  | some v =>
    rw [hl] at h
    by_cases hle : amount ≤ v
    · simp [hle] at h
      cases h
      have h1 := sum_set_balance (n := v - amount) hl
      have h2 := lookup_le_sum hl
      simp [ShareLedger.inv] at hinv ⊢
      omega
    · simp [hle] at h

theorem burn_shares_total {l l' : ShareLedger} {a : String} {amount : Nat}
    (h : l.burn_shares a amount = .ok l') : l'.total_shares = l.total_shares - amount := by
  unfold ShareLedger.burn_shares at h
  cases hl : lookup_balance l.balances a with
  | none => rw [hl] at h; cases h
  | some v =>
    rw [hl] at h
    by_cases hle : amount ≤ v
    · simp [hle] at h; cases h; rfl
    · simp [hle] at h

theorem burn_shares_error {l : ShareLedger} {a : String} {amount : Nat} {e : PoolError}
    (h : l.burn_shares a amount = .error e) :
    e = .NotRegistered ∨ e = .InsufficientShares := by
  unfold ShareLedger.burn_shares at h
  cases hl : lookup_balance l.balances a with
  | none => rw [hl] at h; cases h; exact Or.inl rfl
  | some v =>
    rw [hl] at h
    by_cases hle : amount ≤ v
    · simp [hle] at h
    · simp [hle] at h; cases h; exact Or.inr rfl

theorem share_transfer_inv {l l' : ShareLedger} {s r : String} {amount : Nat}
    (h : l.share_transfer s r amount = .ok l') (hinv : l.inv) : l'.inv := by
  unfold ShareLedger.share_transfer at h
  cases hs : lookup_balance l.balances s with
  | none => rw [hs] at h; cases h
  | some vs =>
    rw [hs] at h
    by_cases hle : amount ≤ vs
    · simp [hle] at h
      cases hr : lookup_balance l.balances r with
      | none => rw [hr] at h; cases h
      | some vr0 =>
        rw [hr] at h
        cases hr1 : lookup_balance (set_balance l.balances s (vs - amount)) r with
        | none => rw [hr1] at h; cases h
        | some vr =>
          rw [hr1] at h
          cases h
          have h1 := sum_set_balance (n := vs - amount) hs
          have h2 := sum_set_balance (n := vr + amount) hr1
          have h3 := lookup_le_sum hs
          have h4 := lookup_le_sum hr1
          simp [ShareLedger.inv] at hinv ⊢
          omega
    · simp [hle] at h

/-- Ceiling division, used where the spec requires rounding against the
depositor / trader and in favor of the pool. -/
def ceil_div (a b : Nat) : Nat := (a + b - 1) / b

/-- Minimum of a list of amounts (zero for the empty list). -/
def min_of_list : List Nat → Nat
  | [] => 0
  | x :: rest => rest.foldr min x

/-- Modelled from the spec: the rate-adjusted and risk-capped variants
multiply each raw reserve by an external exchange rate / risk factor to
obtain normalized balances in a common unit. -/
def normalized_amounts (amounts rates : List Nat) : List Nat :=
  List.zipWith (fun a r => a * r / RATE_DENOM) amounts rates

/-- Modelled from the spec: shares minted by a stable-family deposit.
The invariant value D (spec: solved by a converging iteration) is modelled
as the sum of normalized balances, the curve's value at parity; shares are
minted proportional to invariant growth relative to the current supply,
after deducting the ratio-deviation fee on any amount that deviates from
the pool's ideal balanced ratio.  The exact curve shape is immaterial to
the claims settled against this model. -/
def stable_add_minted (old_c new_c : List Nat) (total_shares trade_fee : Nat) : Nat :=
  let d0 := old_c.sum
  let d1 := new_c.sum
  if total_shares = 0 then d1
  else
    let ideal := old_c.map (fun x => x * d1 / d0)
    let diffs := List.zipWith (fun nc ideal_c => if ideal_c ≤ nc then nc - ideal_c else ideal_c - nc) new_c ideal
    let after_fee := List.zipWith (fun nc df => nc - trade_fee * df / FEE_DIVISOR) new_c diffs
    let d2 := after_fee.sum
    total_shares * (d2 - d0) / d0

/-- Modelled from the spec: shares burned by a stable-family
remove-liquidity-by-tokens, proportional to invariant shrinkage with the
same ratio-deviation fee as deposits, rounded against the caller. -/
def stable_remove_burned (old_c new_c : List Nat) (total_shares trade_fee : Nat) : Nat :=
  let d0 := old_c.sum
  let d1 := new_c.sum
  let ideal := old_c.map (fun x => x * d1 / d0)
  let diffs := List.zipWith (fun nc ideal_c => if ideal_c ≤ nc then nc - ideal_c else ideal_c - nc) new_c ideal
  let after_fee := List.zipWith (fun nc df => nc - trade_fee * df / FEE_DIVISOR) new_c diffs
  let d2 := after_fee.sum
  ceil_div (total_shares * (d0 - d2)) d0

/-- Modelled from the spec: proportional withdrawal shared by every
variant's remove-liquidity path — each token amount returned is
reserve_i * shares / total_shares (floored); fails with SlippageExceeded
when any amount is below its minimum and burns the shares from the
sender's ledger entry. -/
def ledger_remove_by_shares (reserves : List Nat) (l : ShareLedger) (sender_id : String)
    (shares : Nat) (min_amounts : List Nat) :
    Except PoolError (List Nat × ShareLedger × List Nat) :=
  let amounts := reserves.map (fun r => r * shares / l.total_shares)
  if (List.zip min_amounts amounts).all (fun q => decide (q.1 ≤ q.2)) then
    match l.burn_shares sender_id shares with
    | .error e => .error e
    | .ok l2 => .ok (List.zipWith (fun r a => r - a) reserves amounts, l2, amounts)
  else .error .SlippageExceeded

/-- Modelled from the spec: the shared body of the stable-family fee-aware
deposit (StableSwapPool / RatedSwapPool / DegenSwapPool add_liquidity). -/
def stable_add_liquidity_common (token_count : Nat) (reserves rates : List Nat)
    (l : ShareLedger) (sender_id : String) (amounts : List Nat) (min_shares trade_fee : Nat) :
    Except PoolError (List Nat × ShareLedger × Nat) :=
  if amounts.length = token_count then
    let new_reserves := List.zipWith (· + ·) reserves amounts
    let minted := stable_add_minted (normalized_amounts reserves rates)
        (normalized_amounts new_reserves rates) l.total_shares trade_fee
    if minted < min_shares then .error .SlippageExceeded
    else
      match l.mint_shares sender_id minted with
      | .error e => .error e
      | .ok l2 => .ok (new_reserves, l2, minted)
  else .error .InvalidToken

/-- Modelled from the spec: the constant-product pool (its implementation
file is not among the analysed sources).  Holds the fixed token set, the
per-token reserves, volume counters, the fee configuration and the
embedded share ledger. -/
structure SimplePool where
  token_account_ids : List String
  amounts : List Nat
  volumes : List SwapVolume
  total_fee : Nat
  exchange_fee : Nat
  referral_fee : Nat
  shares : ShareLedger
deriving DecidableEq

/-- Modelled from the spec: the plain stableswap pool with an amplification
coefficient controlling curve flatness near parity. -/
structure StableSwapPool where
  token_account_ids : List String
  amounts : List Nat
  volumes : List SwapVolume
  total_fee : Nat
  init_amp_factor : Nat
  shares : ShareLedger
deriving DecidableEq

/-- Modelled from the spec: the rate-adjusted stableswap pool; `rates` is
the cached oracle-supplied exchange-rate vector. -/
structure RatedSwapPool where
  token_account_ids : List String
  amounts : List Nat
  volumes : List SwapVolume
  total_fee : Nat
  init_amp_factor : Nat
  rates : List Nat
  shares : ShareLedger
deriving DecidableEq

/-- Modelled from the spec: the risk-capped "degen" stableswap pool;
`degens` is the cached risk-factor vector. -/
structure DegenSwapPool where
  token_account_ids : List String
  amounts : List Nat
  volumes : List SwapVolume
  total_fee : Nat
  init_amp_factor : Nat
  degens : List Nat
  shares : ShareLedger
deriving DecidableEq

/-- Modelled from the spec: SimplePool::add_liquidity.  On an empty pool
the first deposit sets the initial ratio and mints shares equal to a
canonical normalization of the deposited basket (modelled as its sum); on
a nonempty pool the amounts are adjusted down to the largest
ratio-preserving sub-amounts and shares are minted pro rata, rounding
effective amounts up (against the depositor). -/
def SimplePool.add_liquidity (pool : SimplePool) (sender_id : String)
    (amounts : List Nat) (is_view : Bool) :
    Except PoolError (SimplePool × List Nat × Nat) :=
  if amounts.length = pool.token_account_ids.length then
    let ts := pool.shares.total_shares
    if ts = 0 then
      match pool.shares.mint_shares sender_id amounts.sum with
      | .error e => .error e
      | .ok l2 =>
        .ok ({ pool with amounts := List.zipWith (· + ·) pool.amounts amounts, shares := l2 },
          amounts, amounts.sum)
    else
      let fair := min_of_list (List.zipWith (fun a r => a * ts / r) amounts pool.amounts)
      let eff := pool.amounts.map (fun r => ceil_div (fair * r) ts)
      match pool.shares.mint_shares sender_id fair with
      | .error e => .error e
      | .ok l2 =>
        .ok ({ pool with amounts := List.zipWith (· + ·) pool.amounts eff, shares := l2 },
          eff, fair)
  else .error .InvalidToken

/-- Modelled from the spec: SimplePool::remove_liquidity (proportional
withdrawal). -/
def SimplePool.remove_liquidity (pool : SimplePool) (sender_id : String) (shares : Nat)
    (min_amounts : List Nat) (is_view : Bool) : Except PoolError (SimplePool × List Nat) :=
  match ledger_remove_by_shares pool.amounts pool.shares sender_id shares min_amounts with
  | .error e => .error e
  | .ok (res, l2, amounts) => .ok ({ pool with amounts := res, shares := l2 }, amounts)

/-- Modelled from the spec: SimplePool::swap_by_output, the exact-output
constant-product swap; solves for the input preserving the product of the
two involved reserves, grosses the fee up, and enforces the optional
max_amount_in bound. -/
def SimplePool.swap_by_output (pool : SimplePool) (token_in : String) (amount_out : Nat)
    (token_out : String) (max_amount_in : Option Nat) (admin_fee : AdminFees) (is_view : Bool) :
    Except PoolError (SimplePool × Nat) :=
  match pool.token_account_ids.findIdx? (· == token_in),
        pool.token_account_ids.findIdx? (· == token_out) with
  | some i, some j =>
    if i = j then .error .InvalidToken
    else
      let r_in := pool.amounts.getD i 0
      let r_out := pool.amounts.getD j 0
      if amount_out < r_out then
        let net_in := ceil_div (r_in * amount_out) (r_out - amount_out)
        let amount_in := ceil_div (net_in * FEE_DIVISOR) (FEE_DIVISOR - pool.total_fee)
        let within_bound := match max_amount_in with
          | some m => decide (amount_in ≤ m)
          | none => true
        if within_bound then
          .ok ({ pool with
            amounts := (pool.amounts.set i (r_in + amount_in)).set j (r_out - amount_out) },
            amount_in)
        else .error .SlippageExceeded
      else .error .InsufficientReserve
  | _, _ => .error .InvalidToken

/-- Modelled from the spec: StableSwapPool::add_liquidity (fee-aware
stable-family deposit). -/
def StableSwapPool.add_liquidity (pool : StableSwapPool) (sender_id : String)
    (amounts : List Nat) (min_shares : Nat) (admin_fee : AdminFees) (is_view : Bool) :
    Except PoolError (StableSwapPool × Nat) :=
  match stable_add_liquidity_common pool.token_account_ids.length pool.amounts
      (List.replicate pool.amounts.length RATE_DENOM) pool.shares sender_id amounts
      min_shares pool.total_fee with
  | .error e => .error e
  | .ok (res, l2, minted) => .ok ({ pool with amounts := res, shares := l2 }, minted)

/-- Modelled from the spec: RatedSwapPool::add_liquidity normalizes raw
reserves by the cached exchange rates before running the shared
stable-family deposit computation. -/
def RatedSwapPool.add_liquidity (pool : RatedSwapPool) (sender_id : String)
    (amounts : List Nat) (min_shares : Nat) (admin_fee : AdminFees) (is_view : Bool) :
    Except PoolError (RatedSwapPool × Nat) :=
  match stable_add_liquidity_common pool.token_account_ids.length pool.amounts
      pool.rates pool.shares sender_id amounts min_shares pool.total_fee with
  | .error e => .error e
  | .ok (res, l2, minted) => .ok ({ pool with amounts := res, shares := l2 }, minted)

/-- Modelled from the spec: DegenSwapPool::add_liquidity normalizes raw
reserves by the cached risk factors before running the shared
stable-family deposit computation. -/
def DegenSwapPool.add_liquidity (pool : DegenSwapPool) (sender_id : String)
    (amounts : List Nat) (min_shares : Nat) (admin_fee : AdminFees) (is_view : Bool) :
    Except PoolError (DegenSwapPool × Nat) :=
  match stable_add_liquidity_common pool.token_account_ids.length pool.amounts
      pool.degens pool.shares sender_id amounts min_shares pool.total_fee with
  | .error e => .error e
  | .ok (res, l2, minted) => .ok ({ pool with amounts := res, shares := l2 }, minted)

/-- Modelled from the spec: StableSwapPool::remove_liquidity_by_shares
(proportional withdrawal, identical contract to the simple pool). -/
def StableSwapPool.remove_liquidity_by_shares (pool : StableSwapPool) (sender_id : String)
    (shares : Nat) (min_amounts : List Nat) (is_view : Bool) :
    Except PoolError (StableSwapPool × List Nat) :=
  match ledger_remove_by_shares pool.amounts pool.shares sender_id shares min_amounts with
  | .error e => .error e
  | .ok (res, l2, amounts) => .ok ({ pool with amounts := res, shares := l2 }, amounts)

/-- Modelled from the spec: RatedSwapPool::remove_liquidity_by_shares. -/
def RatedSwapPool.remove_liquidity_by_shares (pool : RatedSwapPool) (sender_id : String)
    (shares : Nat) (min_amounts : List Nat) (is_view : Bool) :
    Except PoolError (RatedSwapPool × List Nat) :=
  match ledger_remove_by_shares pool.amounts pool.shares sender_id shares min_amounts with
  | .error e => .error e
  | .ok (res, l2, amounts) => .ok ({ pool with amounts := res, shares := l2 }, amounts)

/-- Modelled from the spec: DegenSwapPool::remove_liquidity_by_shares. -/
def DegenSwapPool.remove_liquidity_by_shares (pool : DegenSwapPool) (sender_id : String)
    (shares : Nat) (min_amounts : List Nat) (is_view : Bool) :
    Except PoolError (DegenSwapPool × List Nat) :=
  match ledger_remove_by_shares pool.amounts pool.shares sender_id shares min_amounts with
  | .error e => .error e
  | .ok (res, l2, amounts) => .ok ({ pool with amounts := res, shares := l2 }, amounts)

/-- Modelled from the spec: reserve value per outstanding share in a
fixed-point unit scaled by 1e8 (plain stableswap reserves are already in
the common unit). -/
def StableSwapPool.get_share_price (pool : StableSwapPool) : Nat :=
  pool.amounts.sum * SHARE_PRICE_SCALE / pool.shares.total_shares

/-- Modelled from the spec: rate-normalized reserve value per outstanding
share, scaled by 1e8. -/
def RatedSwapPool.get_share_price (pool : RatedSwapPool) : Nat :=
  (normalized_amounts pool.amounts pool.rates).sum * SHARE_PRICE_SCALE /
    pool.shares.total_shares

/-- Modelled from the spec: total pool value in the reference unit — the
sum of risk-factor-normalized reserves. -/
def DegenSwapPool.get_tvl (pool : DegenSwapPool) : Nat :=
  (normalized_amounts pool.amounts pool.degens).sum

/-- Modelled from the spec: risk-factor-normalized reserve value per
outstanding share, scaled by 1e8. -/
def DegenSwapPool.get_share_price (pool : DegenSwapPool) : Nat :=
  pool.get_tvl * SHARE_PRICE_SCALE / pool.shares.total_shares

/-- Modelled from the spec: validity assertion on the cached risk factors
(an oracle-supplied factor of zero is unusable and fatal). -/
def DegenSwapPool.assert_degens_valid (pool : DegenSwapPool) : Except PoolError Unit :=
  if pool.degens.all (fun d => decide (0 < d)) then .ok () else .error .InvalidDegenPrice

/-- Modelled from the spec: read-only quote of the rated deposit, with an
optional externally-supplied override of the rate vector. -/
def RatedSwapPool.predict_add_rated_liquidity (pool : RatedSwapPool) (amounts : List Nat)
    (rates : Option (List Nat)) (fees : AdminFees) : Nat :=
  let rs := rates.getD pool.rates
  stable_add_minted (normalized_amounts pool.amounts rs)
    (normalized_amounts (List.zipWith (· + ·) pool.amounts amounts) rs)
    pool.shares.total_shares pool.total_fee

/-- Modelled from the spec: read-only quote of the rated
remove-liquidity-by-tokens, with an optional rate override. -/
def RatedSwapPool.predict_remove_rated_liquidity_by_tokens (pool : RatedSwapPool)
    (amounts : List Nat) (rates : Option (List Nat)) (fees : AdminFees) : Nat :=
  let rs := rates.getD pool.rates
  stable_remove_burned (normalized_amounts pool.amounts rs)
    (normalized_amounts (List.zipWith (fun r a => r - a) pool.amounts amounts) rs)
    pool.shares.total_shares pool.total_fee

/-- Modelled from the spec: read-only exact-input swap quote on the rated
curve (normalize in, exchange at the modelled parity curve net of fee,
denormalize out), with an optional rate override. -/
def RatedSwapPool.get_rated_return (pool : RatedSwapPool) (token_in : String)
    (amount_in : Nat) (token_out : String) (rates : Option (List Nat)) (fees : AdminFees) : Nat :=
  let rs := rates.getD pool.rates
  let i := pool.token_account_ids.findIdx (· == token_in)
  let j := pool.token_account_ids.findIdx (· == token_out)
  let c_in := amount_in * rs.getD i 0 / RATE_DENOM
  let c_out_gross := min c_in ((normalized_amounts pool.amounts rs).getD j 0)
  let c_out := c_out_gross - pool.total_fee * c_out_gross / FEE_DIVISOR
  c_out * RATE_DENOM / rs.getD j 1

/-- Modelled from the spec: read-only quote of the degen deposit, with an
optional override of the risk-factor vector. -/
def DegenSwapPool.predict_add_degen_liquidity (pool : DegenSwapPool) (amounts : List Nat)
    (degens : Option (List Nat)) (fees : AdminFees) : Nat :=
  let rs := degens.getD pool.degens
  stable_add_minted (normalized_amounts pool.amounts rs)
    (normalized_amounts (List.zipWith (· + ·) pool.amounts amounts) rs)
    pool.shares.total_shares pool.total_fee

/-- Modelled from the spec: read-only quote of the degen
remove-liquidity-by-tokens, with an optional risk-factor override. -/
def DegenSwapPool.predict_remove_degen_liquidity_by_tokens (pool : DegenSwapPool)
    (amounts : List Nat) (degens : Option (List Nat)) (fees : AdminFees) : Nat :=
  let rs := degens.getD pool.degens
  stable_remove_burned (normalized_amounts pool.amounts rs)
    (normalized_amounts (List.zipWith (fun r a => r - a) pool.amounts amounts) rs)
    pool.shares.total_shares pool.total_fee

/-- Modelled from the spec: read-only exact-input swap quote on the degen
curve, with an optional risk-factor override. -/
def DegenSwapPool.get_degen_return (pool : DegenSwapPool) (token_in : String)
    (amount_in : Nat) (token_out : String) (degens : Option (List Nat)) (fees : AdminFees) : Nat :=
  let rs := degens.getD pool.degens
  let i := pool.token_account_ids.findIdx (· == token_in)
  let j := pool.token_account_ids.findIdx (· == token_out)
  let c_in := amount_in * rs.getD i 0 / RATE_DENOM
  let c_out_gross := min c_in ((normalized_amounts pool.amounts rs).getD j 0)
  let c_out := c_out_gross - pool.total_fee * c_out_gross / FEE_DIVISOR
  c_out * RATE_DENOM / rs.getD j 1

/-- Generic Pool, the wrapper around the different swap pool
implementations (pool.rs): a closed tagged union with exactly one active
variant, fixed at creation. -/
inductive Pool where
  | SimplePool (pool : SimplePool)
  | StableSwapPool (pool : StableSwapPool)
  | RatedSwapPool (pool : RatedSwapPool)
  | DegenSwapPool (pool : DegenSwapPool)
deriving DecidableEq

/-- Pool::kind (pool.rs lines 23-30). -/
def Pool.kind : Pool → String
  | .SimplePool _ => "SIMPLE_POOL"
  | .StableSwapPool _ => "STABLE_SWAP"
  | .RatedSwapPool _ => "RATED_SWAP"
  | .DegenSwapPool _ => "DEGEN_SWAP"

/-- The active variant's share ledger (each underlying pool consults its
own embedded ShareLedger). -/
def Pool.shares_of : Pool → ShareLedger
  | .SimplePool pool => pool.shares
  | .StableSwapPool pool => pool.shares
  | .RatedSwapPool pool => pool.shares
  | .DegenSwapPool pool => pool.shares

/-- The active variant's reserve vector. -/
def Pool.reserves : Pool → List Nat
  | .SimplePool pool => pool.amounts
  | .StableSwapPool pool => pool.amounts
  | .RatedSwapPool pool => pool.amounts
  | .DegenSwapPool pool => pool.amounts

/-- Pool::add_liquidity (pool.rs lines 53-65): valid only on the simple
pool; `unimplemented!()` — embedded as `UnsupportedOperation` — on every
stable-family variant.  Returns the updated pool, the effective amounts
kept by the pool, and the minted shares. -/
def Pool.add_liquidity (p : Pool) (sender_id : String) (amounts : List Nat)
    (is_view : Bool) : Except PoolError (Pool × List Nat × Nat) :=
  match p with
  | .SimplePool pool =>
    match pool.add_liquidity sender_id amounts is_view with
    | .error e => .error e
    | .ok (pool2, eff, minted) => .ok (.SimplePool pool2, eff, minted)
  | .StableSwapPool _ => .error .UnsupportedOperation
  | .RatedSwapPool _ => .error .UnsupportedOperation
  | .DegenSwapPool _ => .error .UnsupportedOperation

/-- Pool::add_stable_liquidity (pool.rs lines 67-81): valid on every
stable-family variant; `unimplemented!()` on the simple pool. -/
def Pool.add_stable_liquidity (p : Pool) (sender_id : String) (amounts : List Nat)
    (min_shares : Nat) (admin_fee : AdminFees) (is_view : Bool) :
    Except PoolError (Pool × Nat) :=
  match p with
  | .SimplePool _ => .error .UnsupportedOperation
  | .StableSwapPool pool =>
    match pool.add_liquidity sender_id amounts min_shares admin_fee is_view with
    | .error e => .error e
    | .ok (pool2, minted) => .ok (.StableSwapPool pool2, minted)
  | .RatedSwapPool pool =>
    match pool.add_liquidity sender_id amounts min_shares admin_fee is_view with
    | .error e => .error e
    | .ok (pool2, minted) => .ok (.RatedSwapPool pool2, minted)
  | .DegenSwapPool pool =>
    match pool.add_liquidity sender_id amounts min_shares admin_fee is_view with
    | .error e => .error e
    | .ok (pool2, minted) => .ok (.DegenSwapPool pool2, minted)

/-- Pool::remove_liquidity (pool.rs lines 84-103): proportional withdrawal,
dispatched on every variant (remove_liquidity on the simple pool,
remove_liquidity_by_shares on the stable family). -/
def Pool.remove_liquidity (p : Pool) (sender_id : String) (shares : Nat)
    (min_amounts : List Nat) (is_view : Bool) : Except PoolError (Pool × List Nat) :=
  match p with
  | .SimplePool pool =>
    match pool.remove_liquidity sender_id shares min_amounts is_view with
    | .error e => .error e
    | .ok (pool2, amounts) => .ok (.SimplePool pool2, amounts)
  | .StableSwapPool pool =>
    match pool.remove_liquidity_by_shares sender_id shares min_amounts is_view with
    | .error e => .error e
    | .ok (pool2, amounts) => .ok (.StableSwapPool pool2, amounts)
  | .RatedSwapPool pool =>
    match pool.remove_liquidity_by_shares sender_id shares min_amounts is_view with
    | .error e => .error e
    | .ok (pool2, amounts) => .ok (.RatedSwapPool pool2, amounts)
  | .DegenSwapPool pool =>
    match pool.remove_liquidity_by_shares sender_id shares min_amounts is_view with
    | .error e => .error e
    | .ok (pool2, amounts) => .ok (.DegenSwapPool pool2, amounts)

/-- Pool::get_share_decimal (pool.rs lines 129-136). -/
def Pool.get_share_decimal : Pool → Nat
  | .SimplePool _ => 24
  | .StableSwapPool _ => 18
  | .RatedSwapPool _ => 24
  | .DegenSwapPool _ => 24

/-- Pool::get_share_price (pool.rs lines 159-166): share price in
precision 1e8; `unimplemented!()` on the simple pool. -/
def Pool.get_share_price : Pool → Except PoolError Nat
  | .SimplePool _ => .error .UnsupportedOperation
  | .StableSwapPool pool => .ok pool.get_share_price
  | .RatedSwapPool pool => .ok pool.get_share_price
  | .DegenSwapPool pool => .ok pool.get_share_price

/-- Pool::get_tvl (pool.rs lines 168-178): `unimplemented!()` on every
variant but the degen pool, where the cached risk factors are first
asserted valid. -/
def Pool.get_tvl : Pool → Except PoolError Nat
  | .SimplePool _ => .error .UnsupportedOperation
  | .StableSwapPool _ => .error .UnsupportedOperation
  | .RatedSwapPool _ => .error .UnsupportedOperation
  | .DegenSwapPool pool =>
    match pool.assert_degens_valid with
    | .error e => .error e
    | .ok _ => .ok pool.get_tvl

/-- Pool::swap_by_output (pool.rs lines 207-230): exact-output swap,
valid only on the simple pool; `unimplemented!()` on every stable-family
variant. -/
def Pool.swap_by_output (p : Pool) (token_in : String) (amount_out : Nat)
    (token_out : String) (max_amount_in : Option Nat) (admin_fee : AdminFees)
    (is_view : Bool) : Except PoolError (Pool × Nat) :=
  match p with
  | .SimplePool pool =>
    match pool.swap_by_output token_in amount_out token_out max_amount_in admin_fee is_view with
    | .error e => .error e
    | .ok (pool2, amount_in) => .ok (.SimplePool pool2, amount_in)
  | .StableSwapPool _ => .error .UnsupportedOperation
  | .RatedSwapPool _ => .error .UnsupportedOperation
  | .DegenSwapPool _ => .error .UnsupportedOperation

/-- Update the active variant's share ledger through a ledger operation;
the per-variant dispatch is identical for every ledger operation
(pool.rs lines 232-285). -/
def Pool.modify_shares (p : Pool) (f : ShareLedger → Except PoolError ShareLedger) :
    Except PoolError Pool :=
  match p with
  | .SimplePool pool =>
    match f pool.shares with
    | .error e => .error e
    | .ok l2 => .ok (.SimplePool { pool with shares := l2 })
  | .StableSwapPool pool =>
    match f pool.shares with
    | .error e => .error e
    | .ok l2 => .ok (.StableSwapPool { pool with shares := l2 })
  | .RatedSwapPool pool =>
    match f pool.shares with
    | .error e => .error e
    | .ok l2 => .ok (.RatedSwapPool { pool with shares := l2 })
  | .DegenSwapPool pool =>
    match f pool.shares with
    | .error e => .error e
    | .ok l2 => .ok (.DegenSwapPool { pool with shares := l2 })

/-- Pool::share_total_balance (pool.rs lines 232-239). -/
def Pool.share_total_balance (p : Pool) : Nat :=
  p.shares_of.total_shares

/-- Pool::share_balances (pool.rs lines 241-248): balance of one LP,
zero when unregistered. -/
def Pool.share_balances (p : Pool) (account_id : String) : Nat :=
  (lookup_balance p.shares_of.balances account_id).getD 0

/-- Pool::share_transfer (pool.rs lines 250-257). -/
def Pool.share_transfer (p : Pool) (sender_id receiver_id : String) (amount : Nat) :
    Except PoolError Pool :=
  p.modify_shares (fun l => l.share_transfer sender_id receiver_id amount)

/-- Pool::share_has_registered (pool.rs lines 260-267). -/
def Pool.share_has_registered (p : Pool) (account_id : String) : Bool :=
  (lookup_balance p.shares_of.balances account_id).isSome

/-- Pool::share_register (pool.rs lines 269-276). -/
def Pool.share_register (p : Pool) (account_id : String) : Except PoolError Pool :=
  p.modify_shares (fun l => l.share_register account_id)

/-- Pool::share_unregister (pool.rs lines 278-285). -/
def Pool.share_unregister (p : Pool) (account_id : String) : Except PoolError Pool :=
  p.modify_shares (fun l => l.share_unregister account_id)

/-- Pool::predict_add_rated_liquidity (pool.rs lines 287-299): read-only
quote, defined only on the rated pool.  The `&self` receiver is embedded
in state-passing style: the unchanged pool is returned alongside the
quoted value. -/
def Pool.predict_add_rated_liquidity (p : Pool) (amounts : List Nat)
    (rates : Option (List Nat)) (fees : AdminFees) : Except PoolError (Pool × Nat) :=
  match p with
  | .SimplePool _ => .error .UnsupportedOperation
  | .StableSwapPool _ => .error .UnsupportedOperation
  | .RatedSwapPool pool =>
    .ok (.RatedSwapPool pool, pool.predict_add_rated_liquidity amounts rates fees)
  | .DegenSwapPool _ => .error .UnsupportedOperation

/-- Pool::predict_add_degen_liquidity (pool.rs lines 301-313): read-only
quote, defined only on the degen pool. -/
def Pool.predict_add_degen_liquidity (p : Pool) (amounts : List Nat)
    (degens : Option (List Nat)) (fees : AdminFees) : Except PoolError (Pool × Nat) :=
  match p with
  | .SimplePool _ => .error .UnsupportedOperation
  | .StableSwapPool _ => .error .UnsupportedOperation
  | .RatedSwapPool _ => .error .UnsupportedOperation
  | .DegenSwapPool pool =>
    .ok (.DegenSwapPool pool, pool.predict_add_degen_liquidity amounts degens fees)

/-- Pool::predict_remove_rated_liquidity_by_tokens (pool.rs lines
315-327): read-only quote, defined only on the rated pool. -/
def Pool.predict_remove_rated_liquidity_by_tokens (p : Pool) (amounts : List Nat)
    (rates : Option (List Nat)) (fees : AdminFees) : Except PoolError (Pool × Nat) :=
  match p with
  | .SimplePool _ => .error .UnsupportedOperation
  | .StableSwapPool _ => .error .UnsupportedOperation
  | .RatedSwapPool pool =>
    .ok (.RatedSwapPool pool, pool.predict_remove_rated_liquidity_by_tokens amounts rates fees)
  | .DegenSwapPool _ => .error .UnsupportedOperation

/-- Pool::predict_remove_degen_liquidity_by_tokens (pool.rs lines
329-341): read-only quote, defined only on the degen pool. -/
def Pool.predict_remove_degen_liquidity_by_tokens (p : Pool) (amounts : List Nat)
    (degens : Option (List Nat)) (fees : AdminFees) : Except PoolError (Pool × Nat) :=
  match p with
  | .SimplePool _ => .error .UnsupportedOperation
  | .StableSwapPool _ => .error .UnsupportedOperation
  | .RatedSwapPool _ => .error .UnsupportedOperation
  | .DegenSwapPool pool =>
    .ok (.DegenSwapPool pool, pool.predict_remove_degen_liquidity_by_tokens amounts degens fees)

/-- Pool::get_rated_return (pool.rs lines 343-357): read-only swap quote,
defined only on the rated pool. -/
def Pool.get_rated_return (p : Pool) (token_in : String) (amount_in : Nat)
    (token_out : String) (rates : Option (List Nat)) (fees : AdminFees) :
    Except PoolError (Pool × Nat) :=
  match p with
  | .SimplePool _ => .error .UnsupportedOperation
  | .StableSwapPool _ => .error .UnsupportedOperation
  | .RatedSwapPool pool =>
    .ok (.RatedSwapPool pool, pool.get_rated_return token_in amount_in token_out rates fees)
  | .DegenSwapPool _ => .error .UnsupportedOperation

/-- Pool::get_degen_return (pool.rs lines 359-373): read-only swap quote,
defined only on the degen pool. -/
def Pool.get_degen_return (p : Pool) (token_in : String) (amount_in : Nat)
    (token_out : String) (degens : Option (List Nat)) (fees : AdminFees) :
    Except PoolError (Pool × Nat) :=
  match p with
  | .SimplePool _ => .error .UnsupportedOperation
  | .StableSwapPool _ => .error .UnsupportedOperation
  | .RatedSwapPool _ => .error .UnsupportedOperation
  | .DegenSwapPool pool =>
    .ok (.DegenSwapPool pool, pool.get_degen_return token_in amount_in token_out degens fees)

/-- Pool::assert_tvl_not_exceed_limit (pool.rs lines 377-387): on the
degen pool, looks the pool id up in the risk-configuration store (passed
here as an explicit reader, per the design notes) and fails with "Exceed
Max TVL" — embedded as `TvlLimitExceeded` — when the pool's computed TVL
exceeds the configured limit; a no-op when no limit is configured and on
every other variant. -/
def Pool.assert_tvl_not_exceed_limit (p : Pool)
    (pool_limit : Nat → Option DegenPoolLimitInfo) (pool_id : Nat) :
    Except PoolError Unit :=
  match p with
  | .DegenSwapPool pool =>
    match pool_limit pool_id with
    | some degen_pool_limit =>
      if pool.get_tvl ≤ degen_pool_limit.tvl_limit then .ok ()
      else .error .TvlLimitExceeded
    | none => .ok ()
  | _ => .ok ()

theorem mint_shares_not_unsupported {l : ShareLedger} {a : String} {amount : Nat}
    {e : PoolError} (h : l.mint_shares a amount = .error e) : e ≠ .UnsupportedOperation := by
  have := mint_shares_error h
  subst this
  intro hc
  cases hc

theorem stable_common_inv {tc : Nat} {res rates : List Nat} {l : ShareLedger} {s : String}
    {amts : List Nat} {ms tf : Nat} {res2 : List Nat} {l2 : ShareLedger} {m : Nat}
    (h : stable_add_liquidity_common tc res rates l s amts ms tf = .ok (res2, l2, m))
    (hinv : l.inv) : l2.inv := by
  unfold stable_add_liquidity_common at h
  dsimp only [] at h
  split at h
  · split at h
    · cases h
    · split at h
      · cases h
      · cases h
        exact mint_shares_inv (by assumption) hinv
  · cases h

theorem stable_common_error {tc : Nat} {res rates : List Nat} {l : ShareLedger} {s : String}
    {amts : List Nat} {ms tf : Nat} {e : PoolError}
    (h : stable_add_liquidity_common tc res rates l s amts ms tf = .error e) :
    e ≠ .UnsupportedOperation := by
  unfold stable_add_liquidity_common at h
  dsimp only [] at h
  split at h
  · split at h
    · cases h
      intro hc
      cases hc
    · split at h
      · cases h
        exact mint_shares_not_unsupported (by assumption)
      · cases h
  · cases h
    intro hc
    cases hc

theorem simple_add_inv {pool pool2 : SimplePool} {s : String} {amts eff : List Nat}
    {v : Bool} {m : Nat}
    (h : pool.add_liquidity s amts v = .ok (pool2, eff, m))
    (hinv : pool.shares.inv) : pool2.shares.inv := by
  unfold SimplePool.add_liquidity at h
  dsimp only [] at h
  split at h
  · split at h
    · split at h
      · cases h
      · cases h
        exact mint_shares_inv (by assumption) hinv
    · split at h
      · cases h
      · cases h
        exact mint_shares_inv (by assumption) hinv
  · cases h

theorem simple_add_error {pool : SimplePool} {s : String} {amts : List Nat}
    {v : Bool} {e : PoolError}
    (h : pool.add_liquidity s amts v = .error e) : e ≠ .UnsupportedOperation := by
  unfold SimplePool.add_liquidity at h
  dsimp only [] at h
  split at h
  · split at h
    · split at h
      · cases h
        exact mint_shares_not_unsupported (by assumption)
      · cases h
    · split at h
      · cases h
        exact mint_shares_not_unsupported (by assumption)
      · cases h
  · cases h
    intro hc
    cases hc

theorem remove_common_inv {res : List Nat} {l : ShareLedger} {s : String} {sh : Nat}
    {mins res2 : List Nat} {l2 : ShareLedger} {amts : List Nat}
    (h : ledger_remove_by_shares res l s sh mins = .ok (res2, l2, amts))
    (hinv : l.inv) : l2.inv := by
  unfold ledger_remove_by_shares at h
  dsimp only [] at h
  split at h
  · split at h
    · cases h
    · cases h
      exact burn_shares_inv (by assumption) hinv
  · cases h

theorem remove_common_ok {res : List Nat} {l : ShareLedger} {s : String} {sh : Nat}
    {mins res2 : List Nat} {l2 : ShareLedger} {amts : List Nat}
    (h : ledger_remove_by_shares res l s sh mins = .ok (res2, l2, amts)) :
    amts = res.map (fun r => r * sh / l.total_shares) ∧
      l2.total_shares = l.total_shares - sh := by
  unfold ledger_remove_by_shares at h
  dsimp only [] at h
  split at h
  · split at h
    · cases h
    · cases h
      exact ⟨rfl, burn_shares_total (by assumption)⟩
  · cases h

theorem remove_common_error {res : List Nat} {l : ShareLedger} {s : String} {sh : Nat}
    {mins : List Nat} {e : PoolError}
    (h : ledger_remove_by_shares res l s sh mins = .error e) :
    e ≠ .UnsupportedOperation := by
  unfold ledger_remove_by_shares at h
  dsimp only [] at h
  split at h
  · split at h
    · cases h
      rcases burn_shares_error (by assumption) with h1 | h1 <;> subst h1 <;> intro hc <;> cases hc
    · cases h
  · cases h
    intro hc
    cases hc

theorem modify_shares_ok {p p' : Pool} {f : ShareLedger → Except PoolError ShareLedger}
    (h : p.modify_shares f = .ok p') : f p.shares_of = .ok p'.shares_of := by
  cases p with
  | SimplePool pool =>
    simp only [Pool.modify_shares] at h
    split at h
    · cases h
    · rename_i l2 heq
      cases h
      exact heq
  | StableSwapPool pool =>
    simp only [Pool.modify_shares] at h
    split at h
    · cases h
    · rename_i l2 heq
      cases h
      exact heq
  | RatedSwapPool pool =>
    simp only [Pool.modify_shares] at h
    split at h
    · cases h
    · rename_i l2 heq
      cases h
      exact heq
  | DegenSwapPool pool =>
    simp only [Pool.modify_shares] at h
    split at h
    · cases h
    · rename_i l2 heq
      cases h
      exact heq

theorem modify_shares_decimal {p p' : Pool} {f : ShareLedger → Except PoolError ShareLedger}
    (h : p.modify_shares f = .ok p') : p'.get_share_decimal = p.get_share_decimal := by
  cases p <;>
    (simp only [Pool.modify_shares] at h
     split at h
     · cases h
     · cases h; rfl)

theorem pool_add_liquidity_inv {p p' : Pool} {s : String} {amts eff : List Nat}
    {v : Bool} {m : Nat}
    (h : p.add_liquidity s amts v = .ok (p', eff, m)) (hinv : p.shares_of.inv) :
    p'.shares_of.inv := by
  cases p with
  | SimplePool pool =>
    simp only [Pool.add_liquidity] at h
    split at h
    · cases h
    · rename_i pool2 eff2 m2 heq
      cases h
      exact simple_add_inv heq hinv
  | StableSwapPool pool => simp [Pool.add_liquidity] at h
  | RatedSwapPool pool => simp [Pool.add_liquidity] at h
  | DegenSwapPool pool => simp [Pool.add_liquidity] at h

theorem pool_add_stable_liquidity_inv {p p' : Pool} {s : String} {amts : List Nat}
    {ms : Nat} {fees : AdminFees} {v : Bool} {m : Nat}
    (h : p.add_stable_liquidity s amts ms fees v = .ok (p', m)) (hinv : p.shares_of.inv) :
    p'.shares_of.inv := by
  cases p with
  | SimplePool pool => simp [Pool.add_stable_liquidity] at h
  | StableSwapPool pool =>
    simp only [Pool.add_stable_liquidity] at h
    split at h
    · cases h
    · rename_i pool2 m2 heq
      cases h
      unfold StableSwapPool.add_liquidity at heq
      split at heq
      · cases heq
      · rename_i res l2 m3 heq2
        cases heq
        exact stable_common_inv heq2 hinv
  | RatedSwapPool pool =>
    simp only [Pool.add_stable_liquidity] at h
    split at h
    · cases h
    · rename_i pool2 m2 heq
      cases h
      unfold RatedSwapPool.add_liquidity at heq
      split at heq
      · cases heq
      · rename_i res l2 m3 heq2
        cases heq
        exact stable_common_inv heq2 hinv
  | DegenSwapPool pool =>
    simp only [Pool.add_stable_liquidity] at h
    split at h
    · cases h
    · rename_i pool2 m2 heq
      cases h
      unfold DegenSwapPool.add_liquidity at heq
      split at heq
      · cases heq
      · rename_i res l2 m3 heq2
        cases heq
        exact stable_common_inv heq2 hinv

theorem pool_remove_liquidity_inv {p p' : Pool} {s : String} {sh : Nat}
    {mins amts : List Nat} {v : Bool}
    (h : p.remove_liquidity s sh mins v = .ok (p', amts)) (hinv : p.shares_of.inv) :
    p'.shares_of.inv := by
  cases p with
  | SimplePool pool =>
    simp only [Pool.remove_liquidity] at h
    split at h
    · cases h
    · rename_i pool2 amts2 heq
      cases h
      unfold SimplePool.remove_liquidity at heq
      split at heq
      · cases heq
      · rename_i res l2 amts3 heq2
        cases heq
        exact remove_common_inv heq2 hinv
  | StableSwapPool pool =>
    simp only [Pool.remove_liquidity] at h
    split at h
    · cases h
    · rename_i pool2 amts2 heq
      cases h
      unfold StableSwapPool.remove_liquidity_by_shares at heq
      split at heq
      · cases heq
      · rename_i res l2 amts3 heq2
        cases heq
        exact remove_common_inv heq2 hinv
  | RatedSwapPool pool =>
    simp only [Pool.remove_liquidity] at h
    split at h
    · cases h
    · rename_i pool2 amts2 heq
      cases h
      unfold RatedSwapPool.remove_liquidity_by_shares at heq
      split at heq
      · cases heq
      · rename_i res l2 amts3 heq2
        cases heq
        exact remove_common_inv heq2 hinv
  | DegenSwapPool pool =>
    simp only [Pool.remove_liquidity] at h
    split at h
    · cases h
    · rename_i pool2 amts2 heq
      cases h
      unfold DegenSwapPool.remove_liquidity_by_shares at heq
      split at heq
      · cases heq
      · rename_i res l2 amts3 heq2
        cases heq
        exact remove_common_inv heq2 hinv

theorem pool_add_liquidity_decimal {p p' : Pool} {s : String} {amts eff : List Nat}
    {v : Bool} {m : Nat}
    (h : p.add_liquidity s amts v = .ok (p', eff, m)) :
    p'.get_share_decimal = p.get_share_decimal := by
  cases p with
  | SimplePool pool =>
    simp only [Pool.add_liquidity] at h
    split at h
    · cases h
    · cases h; rfl
  | StableSwapPool pool => simp [Pool.add_liquidity] at h
  | RatedSwapPool pool => simp [Pool.add_liquidity] at h
  | DegenSwapPool pool => simp [Pool.add_liquidity] at h

theorem pool_add_stable_liquidity_decimal {p p' : Pool} {s : String} {amts : List Nat}
    {ms : Nat} {fees : AdminFees} {v : Bool} {m : Nat}
    (h : p.add_stable_liquidity s amts ms fees v = .ok (p', m)) :
    p'.get_share_decimal = p.get_share_decimal := by
  cases p with
  | SimplePool pool => simp [Pool.add_stable_liquidity] at h
  | StableSwapPool pool =>
    simp only [Pool.add_stable_liquidity] at h
    split at h
    · cases h
    · cases h; rfl
  | RatedSwapPool pool =>
    simp only [Pool.add_stable_liquidity] at h
    split at h
    · cases h
    · cases h; rfl
  | DegenSwapPool pool =>
    simp only [Pool.add_stable_liquidity] at h
    split at h
    · cases h
    · cases h; rfl

theorem pool_remove_liquidity_decimal {p p' : Pool} {s : String} {sh : Nat}
    {mins amts : List Nat} {v : Bool}
    (h : p.remove_liquidity s sh mins v = .ok (p', amts)) :
    p'.get_share_decimal = p.get_share_decimal := by
  cases p with
  | SimplePool pool =>
    simp only [Pool.remove_liquidity] at h
    split at h
    · cases h
    · cases h; rfl
  | StableSwapPool pool =>
    simp only [Pool.remove_liquidity] at h
    split at h
    · cases h
    · cases h; rfl
  | RatedSwapPool pool =>
    simp only [Pool.remove_liquidity] at h
    split at h
    · cases h
    · cases h; rfl
  | DegenSwapPool pool =>
    simp only [Pool.remove_liquidity] at h
    split at h
    · cases h
    · cases h; rfl

/-- One ledger-affecting operation on a pool: the explicit share-ledger
calls of the dispatcher together with the liquidity operations that mint
and burn shares. -/
inductive PoolOp where
  | register (account_id : String)
  | unregister (account_id : String)
  | transfer (sender_id receiver_id : String) (amount : Nat)
  | addLiquidity (sender_id : String) (amounts : List Nat)
  | addStableLiquidity (sender_id : String) (amounts : List Nat) (min_shares : Nat)
      (admin_fee : AdminFees)
  | removeLiquidity (sender_id : String) (shares : Nat) (min_amounts : List Nat)

/-- Apply one operation through the dispatcher, keeping only the updated
pool. -/
def Pool.apply_op (p : Pool) (op : PoolOp) : Except PoolError Pool :=
  match op with
  | .register a => p.share_register a
  | .unregister a => p.share_unregister a
  | .transfer s r amount => p.share_transfer s r amount
  | .addLiquidity s amts =>
    match p.add_liquidity s amts false with
    | .error e => .error e
    | .ok (p2, _, _) => .ok p2
  | .addStableLiquidity s amts ms fees =>
    match p.add_stable_liquidity s amts ms fees false with
    | .error e => .error e
    | .ok (p2, _) => .ok p2
  | .removeLiquidity s sh mins =>
    match p.remove_liquidity s sh mins false with
    | .error e => .error e
    | .ok (p2, _) => .ok p2

/-- Run a sequence of operations; a failed operation aborts with no state
change, so the sequence continues from the unchanged pool. -/
def Pool.run_ops (p : Pool) : List PoolOp → Pool
  | [] => p
  | op :: rest =>
    match p.apply_op op with
    | .ok p2 => p2.run_ops rest
    | .error _ => p.run_ops rest

theorem apply_op_inv {p p' : Pool} {op : PoolOp}
    (h : p.apply_op op = .ok p') (hinv : p.shares_of.inv) : p'.shares_of.inv := by
  cases op with
  | register a =>
    simp only [Pool.apply_op, Pool.share_register] at h
    exact share_register_inv (modify_shares_ok h) hinv
  | unregister a =>
    simp only [Pool.apply_op, Pool.share_unregister] at h
    exact share_unregister_inv (modify_shares_ok h) hinv
  | transfer s r amount =>
    simp only [Pool.apply_op, Pool.share_transfer] at h
    exact share_transfer_inv (modify_shares_ok h) hinv
  | addLiquidity s amts =>
    simp only [Pool.apply_op] at h
    split at h
    · cases h
    · rename_i p2 eff m heq
      cases h
      exact pool_add_liquidity_inv heq hinv
  | addStableLiquidity s amts ms fees =>
    simp only [Pool.apply_op] at h
    split at h
    · cases h
    · rename_i p2 m heq
      cases h
      exact pool_add_stable_liquidity_inv heq hinv
  | removeLiquidity s sh mins =>
    simp only [Pool.apply_op] at h
    split at h
    · cases h
    · rename_i p2 amts2 heq
      cases h
      exact pool_remove_liquidity_inv heq hinv

theorem apply_op_decimal {p p' : Pool} {op : PoolOp}
    (h : p.apply_op op = .ok p') : p'.get_share_decimal = p.get_share_decimal := by
  cases op with
  | register a =>
    simp only [Pool.apply_op, Pool.share_register] at h
    exact modify_shares_decimal h
  | unregister a =>
    simp only [Pool.apply_op, Pool.share_unregister] at h
    exact modify_shares_decimal h
  | transfer s r amount =>
    simp only [Pool.apply_op, Pool.share_transfer] at h
    exact modify_shares_decimal h
  | addLiquidity s amts =>
    simp only [Pool.apply_op] at h
    split at h
    · cases h
    · rename_i p2 eff m heq
      cases h
      exact pool_add_liquidity_decimal heq
  | addStableLiquidity s amts ms fees =>
    simp only [Pool.apply_op] at h
    split at h
    · cases h
    · rename_i p2 m heq
      cases h
      exact pool_add_stable_liquidity_decimal heq
  | removeLiquidity s sh mins =>
    simp only [Pool.apply_op] at h
    split at h
    · cases h
    · rename_i p2 amts2 heq
      cases h
      exact pool_remove_liquidity_decimal heq

theorem run_ops_inv : ∀ (ops : List PoolOp) (p : Pool),
    p.shares_of.inv → (p.run_ops ops).shares_of.inv := by
  intro ops
  induction ops with
  | nil => intro p hinv; exact hinv
  | cons op rest ih =>
    intro p hinv
    unfold Pool.run_ops
    cases happ : p.apply_op op with
    | ok p2 => exact ih p2 (apply_op_inv happ hinv)
    | error e => exact ih p hinv

theorem run_ops_decimal : ∀ (ops : List PoolOp) (p : Pool),
    (p.run_ops ops).get_share_decimal = p.get_share_decimal := by
  intro ops
  induction ops with
  | nil => intro p; rfl
  | cons op rest ih =>
    intro p
    unfold Pool.run_ops
    cases happ : p.apply_op op with
    | ok p2 => rw [ih p2, apply_op_decimal happ]
    | error e => exact ih p

theorem stable_pool_add_error {pool : StableSwapPool} {s : String} {amts : List Nat}
    {ms : Nat} {fees : AdminFees} {v : Bool} {e : PoolError}
    (h : pool.add_liquidity s amts ms fees v = .error e) : e ≠ .UnsupportedOperation := by
  unfold StableSwapPool.add_liquidity at h
  split at h
  · rename_i e2 heq
    cases h
    exact stable_common_error heq
  · cases h

theorem rated_pool_add_error {pool : RatedSwapPool} {s : String} {amts : List Nat}
    {ms : Nat} {fees : AdminFees} {v : Bool} {e : PoolError}
    (h : pool.add_liquidity s amts ms fees v = .error e) : e ≠ .UnsupportedOperation := by
  unfold RatedSwapPool.add_liquidity at h
  split at h
  · rename_i e2 heq
    cases h
    exact stable_common_error heq
  · cases h

theorem degen_pool_add_error {pool : DegenSwapPool} {s : String} {amts : List Nat}
    {ms : Nat} {fees : AdminFees} {v : Bool} {e : PoolError}
    (h : pool.add_liquidity s amts ms fees v = .error e) : e ≠ .UnsupportedOperation := by
  unfold DegenSwapPool.add_liquidity at h
  split at h
  · rename_i e2 heq
    cases h
    exact stable_common_error heq
  · cases h

theorem pool_remove_liquidity_not_unsupported {p : Pool} {s : String} {sh : Nat}
    {mins : List Nat} {v : Bool} :
    p.remove_liquidity s sh mins v ≠ .error .UnsupportedOperation := by
  intro hc
  cases p with
  | SimplePool pool =>
    simp only [Pool.remove_liquidity] at hc
    split at hc
    · rename_i e heq
      cases hc
      unfold SimplePool.remove_liquidity at heq
      split at heq
      · rename_i e2 heq2
        cases heq
        exact remove_common_error heq2 rfl
      · cases heq
    · cases hc
  | StableSwapPool pool =>
    simp only [Pool.remove_liquidity] at hc
    split at hc
    · rename_i e heq
      cases hc
      unfold StableSwapPool.remove_liquidity_by_shares at heq
      split at heq
      · rename_i e2 heq2
        cases heq
        exact remove_common_error heq2 rfl
      · cases heq
    · cases hc
  | RatedSwapPool pool =>
    simp only [Pool.remove_liquidity] at hc
    split at hc
    · rename_i e heq
      cases hc
      unfold RatedSwapPool.remove_liquidity_by_shares at heq
      split at heq
      · rename_i e2 heq2
        cases heq
        exact remove_common_error heq2 rfl
      · cases heq
    · cases hc
  | DegenSwapPool pool =>
    simp only [Pool.remove_liquidity] at hc
    split at hc
    · rename_i e heq
      cases hc
      unfold DegenSwapPool.remove_liquidity_by_shares at heq
      split at heq
      · rename_i e2 heq2
        cases heq
        exact remove_common_error heq2 rfl
      · cases heq
    · cases hc

theorem pool_remove_liquidity_ok_spec {p p2 : Pool} {s : String} {sh : Nat}
    {mins amts : List Nat} {v : Bool}
    (h : p.remove_liquidity s sh mins v = .ok (p2, amts)) :
    amts = p.reserves.map (fun r => r * sh / p.shares_of.total_shares) ∧
      p2.shares_of.total_shares = p.shares_of.total_shares - sh := by
  cases p with
  | SimplePool pool =>
    simp only [Pool.remove_liquidity] at h
    split at h
    · cases h
    · rename_i pool2 amts2 heq
      cases h
      unfold SimplePool.remove_liquidity at heq
      split at heq
      · cases heq
      · rename_i res l2 amts3 heq2
        cases heq
        exact remove_common_ok heq2
  | StableSwapPool pool =>
    simp only [Pool.remove_liquidity] at h
    split at h
    · cases h
    · rename_i pool2 amts2 heq
      cases h
      unfold StableSwapPool.remove_liquidity_by_shares at heq
      split at heq
      · cases heq
      · rename_i res l2 amts3 heq2
        cases heq
        exact remove_common_ok heq2
  | RatedSwapPool pool =>
    simp only [Pool.remove_liquidity] at h
    split at h
    · cases h
    · rename_i pool2 amts2 heq
      cases h
      unfold RatedSwapPool.remove_liquidity_by_shares at heq
      split at heq
      · cases heq
      · rename_i res l2 amts3 heq2
        cases heq
        exact remove_common_ok heq2
  | DegenSwapPool pool =>
    simp only [Pool.remove_liquidity] at h
    split at h
    · cases h
    · rename_i pool2 amts2 heq
      cases h
      unfold DegenSwapPool.remove_liquidity_by_shares at heq
      split at heq
      · cases heq
      · rename_i res l2 amts3 heq2
        cases heq
        exact remove_common_ok heq2

theorem simple_swap_by_output_error {pool : SimplePool} {tin : String} {aout : Nat}
    {tout : String} {maxin : Option Nat} {fees : AdminFees} {v : Bool} {e : PoolError}
    (h : pool.swap_by_output tin aout tout maxin fees v = .error e) :
    e ≠ .UnsupportedOperation := by
  unfold SimplePool.swap_by_output at h
  try dsimp only [] at h
  split at h
  · split at h
    · cases h
      intro hc
      cases hc
    · try dsimp only [] at h
      split at h
      · try dsimp only [] at h
        split at h
        · cases h
        · cases h
          intro hc
          cases hc
      · cases h
        intro hc
        cases hc
  · cases h
    intro hc
    cases hc

/-- A sample constant-product pool used to witness the ledger claims. -/
def simplePoolEx : SimplePool :=
  { token_account_ids := ["tok.a", "tok.b"]
    amounts := [100, 200]
    volumes := [⟨0, 0⟩, ⟨0, 0⟩]
    total_fee := 30
    exchange_fee := 5
    referral_fee := 1
    shares := ⟨[("alice", 60), ("bob", 40)], 100⟩ }

/-- A sample risk-capped pool whose TVL is 1000001 in the reference unit. -/
def degenPoolEx : DegenSwapPool :=
  { token_account_ids := ["usdt", "usdc"]
    amounts := [1000000, 1]
    volumes := [⟨0, 0⟩, ⟨0, 0⟩]
    total_fee := 25
    init_amp_factor := 60
    degens := [RATE_DENOM, RATE_DENOM]
    shares := ⟨[("lp", 10)], 10⟩ }

/-- A sample risk-configuration store: pool 0 is capped at 1000000, every
other pool id is unconfigured. -/
def degenLimitsEx : Nat → Option DegenPoolLimitInfo :=
  fun pool_id => if pool_id = 0 then some ⟨1000000⟩ else none

/-- A sample operation sequence touching every ledger operation kind. -/
def opsEx : List PoolOp :=
  [.register "carol", .transfer "alice" "carol" 25,
   .addLiquidity "bob" [10, 20], .removeLiquidity "carol" 5 [0, 0],
   .unregister "dave"]

/-- C1: for every Pool variant and every sequence of ledger operations
(share_register, share_unregister, share_transfer, and the mint/burn
performed by the liquidity operations), the share ledger invariant — the
sum of all per-holder balances equals total_shares — holds after every
operation, i.e. after every prefix of the sequence. -/
theorem claim_ledger_invariant (p : Pool) (ops : List PoolOp)
    (hinv : p.shares_of.inv) :
    ∀ n : Nat, ((p.run_ops (ops.take n)).shares_of).inv :=
  fun _ => run_ops_inv _ p hinv

/-- Witness for C1 at a concrete pool and a concrete operation sequence
covering register, transfer, add-liquidity mint, remove-liquidity burn
and a failing unregister. -/
theorem claim_ledger_invariant_witness :
    (Pool.SimplePool simplePoolEx).shares_of.inv ∧
    ((Pool.SimplePool simplePoolEx).run_ops (opsEx.take 5)).shares_of.inv :=
  ⟨by decide, claim_ledger_invariant (.SimplePool simplePoolEx) opsEx (by decide) 5⟩

/-- C2: add_liquidity fails with UnsupportedOperation on the three
stable-family variants and dispatches to the underlying implementation
(never yielding UnsupportedOperation) on the simple pool;
add_stable_liquidity fails with UnsupportedOperation on the simple pool
and dispatches to the underlying implementation (never yielding
UnsupportedOperation) on each stable-family variant. -/
theorem claim_add_liquidity_dispatch :
    (∀ (pool : StableSwapPool) (s : String) (amts : List Nat) (v : Bool),
      Pool.add_liquidity (.StableSwapPool pool) s amts v = .error .UnsupportedOperation) ∧
    (∀ (pool : RatedSwapPool) (s : String) (amts : List Nat) (v : Bool),
      Pool.add_liquidity (.RatedSwapPool pool) s amts v = .error .UnsupportedOperation) ∧
    (∀ (pool : DegenSwapPool) (s : String) (amts : List Nat) (v : Bool),
      Pool.add_liquidity (.DegenSwapPool pool) s amts v = .error .UnsupportedOperation) ∧
    (∀ (pool : SimplePool) (s : String) (amts : List Nat) (v : Bool),
      Pool.add_liquidity (.SimplePool pool) s amts v =
        (pool.add_liquidity s amts v).map (fun r => (.SimplePool r.1, r.2)) ∧
      Pool.add_liquidity (.SimplePool pool) s amts v ≠ .error .UnsupportedOperation) ∧
    (∀ (pool : SimplePool) (s : String) (amts : List Nat) (ms : Nat) (fees : AdminFees)
      (v : Bool),
      Pool.add_stable_liquidity (.SimplePool pool) s amts ms fees v =
        .error .UnsupportedOperation) ∧
    (∀ (pool : StableSwapPool) (s : String) (amts : List Nat) (ms : Nat) (fees : AdminFees)
      (v : Bool),
      Pool.add_stable_liquidity (.StableSwapPool pool) s amts ms fees v =
        (pool.add_liquidity s amts ms fees v).map (fun r => (.StableSwapPool r.1, r.2)) ∧
      Pool.add_stable_liquidity (.StableSwapPool pool) s amts ms fees v ≠
        .error .UnsupportedOperation) ∧
    (∀ (pool : RatedSwapPool) (s : String) (amts : List Nat) (ms : Nat) (fees : AdminFees)
      (v : Bool),
      Pool.add_stable_liquidity (.RatedSwapPool pool) s amts ms fees v =
        (pool.add_liquidity s amts ms fees v).map (fun r => (.RatedSwapPool r.1, r.2)) ∧
      Pool.add_stable_liquidity (.RatedSwapPool pool) s amts ms fees v ≠
        .error .UnsupportedOperation) ∧
    (∀ (pool : DegenSwapPool) (s : String) (amts : List Nat) (ms : Nat) (fees : AdminFees)
      (v : Bool),
      Pool.add_stable_liquidity (.DegenSwapPool pool) s amts ms fees v =
        (pool.add_liquidity s amts ms fees v).map (fun r => (.DegenSwapPool r.1, r.2)) ∧
      Pool.add_stable_liquidity (.DegenSwapPool pool) s amts ms fees v ≠
        .error .UnsupportedOperation) := by
  refine ⟨fun _ _ _ _ => rfl, fun _ _ _ _ => rfl, fun _ _ _ _ => rfl, ?_,
    fun _ _ _ _ _ _ => rfl, ?_, ?_, ?_⟩
  · intro pool s amts v
    refine ⟨?_, ?_⟩
    · cases hr : pool.add_liquidity s amts v with
      | error e => simp [Pool.add_liquidity, hr, Except.map]
      | ok r =>
        obtain ⟨p2, eff, m⟩ := r
        simp [Pool.add_liquidity, hr, Except.map]
    · intro hc
      simp only [Pool.add_liquidity] at hc
      split at hc
      · rename_i e heq
        cases hc
        exact simple_add_error heq rfl
      · cases hc
  · intro pool s amts ms fees v
    refine ⟨?_, ?_⟩
    · cases hr : pool.add_liquidity s amts ms fees v with
      | error e => simp [Pool.add_stable_liquidity, hr, Except.map]
      | ok r =>
        obtain ⟨p2, m⟩ := r
        simp [Pool.add_stable_liquidity, hr, Except.map]
    · intro hc
      simp only [Pool.add_stable_liquidity] at hc
      split at hc
      · rename_i e heq
        cases hc
        exact stable_pool_add_error heq rfl
      · cases hc
  · intro pool s amts ms fees v
    refine ⟨?_, ?_⟩
    · cases hr : pool.add_liquidity s amts ms fees v with
      | error e => simp [Pool.add_stable_liquidity, hr, Except.map]
      | ok r =>
        obtain ⟨p2, m⟩ := r
        simp [Pool.add_stable_liquidity, hr, Except.map]
    · intro hc
      simp only [Pool.add_stable_liquidity] at hc
      split at hc
      · rename_i e heq
        cases hc
        exact rated_pool_add_error heq rfl
      · cases hc
  · intro pool s amts ms fees v
    refine ⟨?_, ?_⟩
    · cases hr : pool.add_liquidity s amts ms fees v with
      | error e => simp [Pool.add_stable_liquidity, hr, Except.map]
      | ok r =>
        obtain ⟨p2, m⟩ := r
        simp [Pool.add_stable_liquidity, hr, Except.map]
    · intro hc
      simp only [Pool.add_stable_liquidity] at hc
      split at hc
      · rename_i e heq
        cases hc
        exact degen_pool_add_error heq rfl
      · cases hc

/-- C3: assert_tvl_not_exceed_limit always succeeds on the simple, stable
and rated variants (it is state-free, so nothing is read or changed); on a
degen pool whose pool id has a configured limit it succeeds exactly when
the computed TVL is within the limit and fails — with the TVL error, and
no state change since the receiver is read-only — exactly when the TVL
exceeds the limit. -/
theorem claim_assert_tvl_guard :
    (∀ (pool : SimplePool) (limits : Nat → Option DegenPoolLimitInfo) (pool_id : Nat),
      Pool.assert_tvl_not_exceed_limit (.SimplePool pool) limits pool_id = .ok ()) ∧
    (∀ (pool : StableSwapPool) (limits : Nat → Option DegenPoolLimitInfo) (pool_id : Nat),
      Pool.assert_tvl_not_exceed_limit (.StableSwapPool pool) limits pool_id = .ok ()) ∧
    (∀ (pool : RatedSwapPool) (limits : Nat → Option DegenPoolLimitInfo) (pool_id : Nat),
      Pool.assert_tvl_not_exceed_limit (.RatedSwapPool pool) limits pool_id = .ok ()) ∧
    (∀ (pool : DegenSwapPool) (limits : Nat → Option DegenPoolLimitInfo) (pool_id : Nat)
      (lim : DegenPoolLimitInfo), limits pool_id = some lim →
      (Pool.assert_tvl_not_exceed_limit (.DegenSwapPool pool) limits pool_id = .ok () ↔
        pool.get_tvl ≤ lim.tvl_limit) ∧
      (Pool.assert_tvl_not_exceed_limit (.DegenSwapPool pool) limits pool_id =
          .error .TvlLimitExceeded ↔ lim.tvl_limit < pool.get_tvl)) := by
  refine ⟨fun _ _ _ => rfl, fun _ _ _ => rfl, fun _ _ _ => rfl, ?_⟩
  intro pool limits pool_id lim hl
  constructor
  · constructor
    · intro h
      by_contra hgt
      push_neg at hgt
      simp only [Pool.assert_tvl_not_exceed_limit, hl] at h
      rw [if_neg (by omega)] at h
      cases h
    · intro hle
      simp only [Pool.assert_tvl_not_exceed_limit, hl]
      rw [if_pos hle]
  · constructor
    · intro h
      by_contra hle
      push_neg at hle
      simp only [Pool.assert_tvl_not_exceed_limit, hl] at h
      rw [if_pos hle] at h
      cases h
    · intro hlt
      simp only [Pool.assert_tvl_not_exceed_limit, hl]
      rw [if_neg (by omega)]

/-- Witness for C3: a degen pool of TVL 1000001 against the configured
limit 1000000 fails the guard. -/
theorem claim_assert_tvl_guard_witness :
    degenLimitsEx 0 = some ⟨1000000⟩ ∧
    Pool.assert_tvl_not_exceed_limit (.DegenSwapPool degenPoolEx) degenLimitsEx 0 =
      .error .TvlLimitExceeded :=
  ⟨by decide,
    ((claim_assert_tvl_guard.2.2.2 degenPoolEx degenLimitsEx 0 ⟨1000000⟩ (by decide)).2).mpr
      (by decide)⟩

/-- C4: remove_liquidity never fails with UnsupportedOperation on any of
the four variants; and on a pool with positive total_shares and a burn of
S ≤ total_shares shares, every successful call returns for each token i
the amount reserve_i * S / total_shares (floored) and decreases
total_shares by exactly S. -/
theorem claim_remove_liquidity_proportional (p : Pool) (s : String) (sh : Nat)
    (mins : List Nat) (v : Bool) (hpos : 0 < p.share_total_balance)
    (hle : sh ≤ p.share_total_balance) :
    p.remove_liquidity s sh mins v ≠ .error .UnsupportedOperation ∧
    ∀ (p2 : Pool) (amts : List Nat), p.remove_liquidity s sh mins v = .ok (p2, amts) →
      amts = p.reserves.map (fun r => r * sh / p.share_total_balance) ∧
      p2.share_total_balance + sh = p.share_total_balance := by
  constructor
  · exact pool_remove_liquidity_not_unsupported
  · intro p2 amts h
    obtain ⟨ha, ht⟩ := pool_remove_liquidity_ok_spec h
    refine ⟨ha, ?_⟩
    unfold Pool.share_total_balance at hle ⊢
    omega

/-- Witness for C4: burning 5 of 100 outstanding shares on a concrete
pool, with the hypotheses discharged by computation. -/
theorem claim_remove_liquidity_proportional_witness :
    0 < Pool.share_total_balance (.SimplePool simplePoolEx) ∧
    5 ≤ Pool.share_total_balance (.SimplePool simplePoolEx) ∧
    Pool.remove_liquidity (.SimplePool simplePoolEx) "alice" 5 [0, 0] false ≠
      .error .UnsupportedOperation :=
  ⟨by decide, by decide,
    (claim_remove_liquidity_proportional (.SimplePool simplePoolEx) "alice" 5 [0, 0] false
      (by decide) (by decide)).1⟩

/-- C5: swap_by_output dispatches to the underlying exact-output
constant-product implementation on the simple pool (never yielding
UnsupportedOperation) and fails with UnsupportedOperation on every
stable-family variant, so it can succeed only on the simple pool. -/
theorem claim_swap_by_output_simple_only :
    (∀ (pool : StableSwapPool) (tin : String) (aout : Nat) (tout : String)
      (maxin : Option Nat) (fees : AdminFees) (v : Bool),
      Pool.swap_by_output (.StableSwapPool pool) tin aout tout maxin fees v =
        .error .UnsupportedOperation) ∧
    (∀ (pool : RatedSwapPool) (tin : String) (aout : Nat) (tout : String)
      (maxin : Option Nat) (fees : AdminFees) (v : Bool),
      Pool.swap_by_output (.RatedSwapPool pool) tin aout tout maxin fees v =
        .error .UnsupportedOperation) ∧
    (∀ (pool : DegenSwapPool) (tin : String) (aout : Nat) (tout : String)
      (maxin : Option Nat) (fees : AdminFees) (v : Bool),
      Pool.swap_by_output (.DegenSwapPool pool) tin aout tout maxin fees v =
        .error .UnsupportedOperation) ∧
    (∀ (pool : SimplePool) (tin : String) (aout : Nat) (tout : String)
      (maxin : Option Nat) (fees : AdminFees) (v : Bool),
      Pool.swap_by_output (.SimplePool pool) tin aout tout maxin fees v =
        (pool.swap_by_output tin aout tout maxin fees v).map
          (fun r => (.SimplePool r.1, r.2)) ∧
      Pool.swap_by_output (.SimplePool pool) tin aout tout maxin fees v ≠
        .error .UnsupportedOperation) := by
  refine ⟨fun _ _ _ _ _ _ _ => rfl, fun _ _ _ _ _ _ _ => rfl,
    fun _ _ _ _ _ _ _ => rfl, ?_⟩
  intro pool tin aout tout maxin fees v
  refine ⟨?_, ?_⟩
  · cases hr : pool.swap_by_output tin aout tout maxin fees v with
    | error e => simp [Pool.swap_by_output, hr, Except.map]
    | ok r =>
      obtain ⟨p2, ain⟩ := r
      simp [Pool.swap_by_output, hr, Except.map]
  · intro hc
    simp only [Pool.swap_by_output] at hc
    split at hc
    · rename_i e heq
      cases hc
      exact simple_swap_by_output_error heq rfl
    · cases hc

/-- C6: get_tvl fails with UnsupportedOperation on the simple, stable and
rated variants; on the degen pool it is defined — it never yields
UnsupportedOperation, and whenever the cached risk factors pass their
validity assertion it returns the pool's computed TVL. -/
theorem claim_get_tvl_degen_only :
    (∀ pool : SimplePool,
      Pool.get_tvl (.SimplePool pool) = .error .UnsupportedOperation) ∧
    (∀ pool : StableSwapPool,
      Pool.get_tvl (.StableSwapPool pool) = .error .UnsupportedOperation) ∧
    (∀ pool : RatedSwapPool,
      Pool.get_tvl (.RatedSwapPool pool) = .error .UnsupportedOperation) ∧
    (∀ pool : DegenSwapPool,
      Pool.get_tvl (.DegenSwapPool pool) ≠ .error .UnsupportedOperation ∧
      (pool.assert_degens_valid = .ok () →
        Pool.get_tvl (.DegenSwapPool pool) = .ok pool.get_tvl)) := by
  refine ⟨fun _ => rfl, fun _ => rfl, fun _ => rfl, ?_⟩
  intro pool
  constructor
  · intro hc
    simp only [Pool.get_tvl] at hc
    split at hc
    · rename_i e heq
      cases hc
      unfold DegenSwapPool.assert_degens_valid at heq
      split at heq
      · cases heq
      · cases heq
    · cases hc
  · intro hvalid
    simp only [Pool.get_tvl, hvalid]

/-- Witness for C6: the concrete degen pool passes the risk-factor
validity assertion and get_tvl returns its computed TVL. -/
theorem claim_get_tvl_degen_only_witness :
    degenPoolEx.assert_degens_valid = .ok () ∧
    Pool.get_tvl (.DegenSwapPool degenPoolEx) = .ok degenPoolEx.get_tvl :=
  ⟨rfl, (claim_get_tvl_degen_only.2.2.2 degenPoolEx).2 rfl⟩

/-- C7: get_share_price fails with UnsupportedOperation on the simple
pool and on each stable-family variant returns the (variant-appropriate
normalized) reserve value per outstanding share in the fixed-point unit
scaled by 1e8. -/
theorem claim_get_share_price_stable_family :
    (∀ pool : SimplePool,
      Pool.get_share_price (.SimplePool pool) = .error .UnsupportedOperation) ∧
    (∀ pool : StableSwapPool,
      Pool.get_share_price (.StableSwapPool pool) =
        .ok (pool.amounts.sum * SHARE_PRICE_SCALE / pool.shares.total_shares)) ∧
    (∀ pool : RatedSwapPool,
      Pool.get_share_price (.RatedSwapPool pool) =
        .ok ((normalized_amounts pool.amounts pool.rates).sum * SHARE_PRICE_SCALE /
          pool.shares.total_shares)) ∧
    (∀ pool : DegenSwapPool,
      Pool.get_share_price (.DegenSwapPool pool) =
        .ok (pool.get_tvl * SHARE_PRICE_SCALE / pool.shares.total_shares)) :=
  ⟨fun _ => rfl, fun _ => rfl, fun _ => rfl, fun _ => rfl⟩

/-- C9: get_share_decimal is a per-variant constant — 24 on the simple,
rated and degen variants, 18 on the plain stableswap variant — and is
unchanged by every sequence of pool operations, so it never changes after
creation. -/
theorem claim_share_decimal_constant :
    (∀ pool : SimplePool, Pool.get_share_decimal (.SimplePool pool) = 24) ∧
    (∀ pool : StableSwapPool, Pool.get_share_decimal (.StableSwapPool pool) = 18) ∧
    (∀ pool : RatedSwapPool, Pool.get_share_decimal (.RatedSwapPool pool) = 24) ∧
    (∀ pool : DegenSwapPool, Pool.get_share_decimal (.DegenSwapPool pool) = 24) ∧
    (∀ (p : Pool) (ops : List PoolOp),
      (p.run_ops ops).get_share_decimal = p.get_share_decimal) :=
  ⟨fun _ => rfl, fun _ => rfl, fun _ => rfl, fun _ => rfl,
    fun p ops => run_ops_decimal ops p⟩

/-- C10: when the risk-configuration store holds no TVL-limit entry for
the pool id, the guard on a degen pool succeeds for every pool state,
whatever its TVL, so any reserve-increasing operation passes it. -/
theorem claim_tvl_guard_unconfigured (pool : DegenSwapPool)
    (limits : Nat → Option DegenPoolLimitInfo) (pool_id : Nat)
    (h : limits pool_id = none) :
    Pool.assert_tvl_not_exceed_limit (.DegenSwapPool pool) limits pool_id = .ok () := by
  simp only [Pool.assert_tvl_not_exceed_limit, h]

/-- Witness for C10: the same over-limit degen pool passes the guard
under an unconfigured pool id. -/
theorem claim_tvl_guard_unconfigured_witness :
    degenLimitsEx 1 = none ∧
    Pool.assert_tvl_not_exceed_limit (.DegenSwapPool degenPoolEx) degenLimitsEx 1 = .ok () :=
  ⟨by decide, claim_tvl_guard_unconfigured degenPoolEx degenLimitsEx 1 (by decide)⟩

/-- C8: each of the six read-only quoting operations
(predict_add_rated_liquidity, predict_add_degen_liquidity,
predict_remove_rated_liquidity_by_tokens,
predict_remove_degen_liquidity_by_tokens, get_rated_return,
get_degen_return) succeeds only on the single variant it names — failing
with UnsupportedOperation on the other three variants — and on that
variant returns the quoted value together with the input pool unchanged
(reserves, share ledger, fees and volumes are exactly those of the
input), since the receiver is read-only. -/
theorem claim_predict_quotes_dispatch :
    (∀ (pool : SimplePool) (amts : List Nat) (rates : Option (List Nat)) (fees : AdminFees),
      Pool.predict_add_rated_liquidity (.SimplePool pool) amts rates fees =
        .error .UnsupportedOperation) ∧
    (∀ (pool : StableSwapPool) (amts : List Nat) (rates : Option (List Nat)) (fees : AdminFees),
      Pool.predict_add_rated_liquidity (.StableSwapPool pool) amts rates fees =
        .error .UnsupportedOperation) ∧
    (∀ (pool : DegenSwapPool) (amts : List Nat) (rates : Option (List Nat)) (fees : AdminFees),
      Pool.predict_add_rated_liquidity (.DegenSwapPool pool) amts rates fees =
        .error .UnsupportedOperation) ∧
    (∀ (pool : RatedSwapPool) (amts : List Nat) (rates : Option (List Nat)) (fees : AdminFees),
      Pool.predict_add_rated_liquidity (.RatedSwapPool pool) amts rates fees =
        .ok (.RatedSwapPool pool, pool.predict_add_rated_liquidity amts rates fees)) ∧
    (∀ (pool : SimplePool) (amts : List Nat) (degens : Option (List Nat)) (fees : AdminFees),
      Pool.predict_add_degen_liquidity (.SimplePool pool) amts degens fees =
        .error .UnsupportedOperation) ∧
    (∀ (pool : StableSwapPool) (amts : List Nat) (degens : Option (List Nat)) (fees : AdminFees),
      Pool.predict_add_degen_liquidity (.StableSwapPool pool) amts degens fees =
        .error .UnsupportedOperation) ∧
    (∀ (pool : RatedSwapPool) (amts : List Nat) (degens : Option (List Nat)) (fees : AdminFees),
      Pool.predict_add_degen_liquidity (.RatedSwapPool pool) amts degens fees =
        .error .UnsupportedOperation) ∧
    (∀ (pool : DegenSwapPool) (amts : List Nat) (degens : Option (List Nat)) (fees : AdminFees),
      Pool.predict_add_degen_liquidity (.DegenSwapPool pool) amts degens fees =
        .ok (.DegenSwapPool pool, pool.predict_add_degen_liquidity amts degens fees)) ∧
    (∀ (pool : SimplePool) (amts : List Nat) (rates : Option (List Nat)) (fees : AdminFees),
      Pool.predict_remove_rated_liquidity_by_tokens (.SimplePool pool) amts rates fees =
        .error .UnsupportedOperation) ∧
    (∀ (pool : StableSwapPool) (amts : List Nat) (rates : Option (List Nat)) (fees : AdminFees),
      Pool.predict_remove_rated_liquidity_by_tokens (.StableSwapPool pool) amts rates fees =
        .error .UnsupportedOperation) ∧
    (∀ (pool : DegenSwapPool) (amts : List Nat) (rates : Option (List Nat)) (fees : AdminFees),
      Pool.predict_remove_rated_liquidity_by_tokens (.DegenSwapPool pool) amts rates fees =
        .error .UnsupportedOperation) ∧
    (∀ (pool : RatedSwapPool) (amts : List Nat) (rates : Option (List Nat)) (fees : AdminFees),
      Pool.predict_remove_rated_liquidity_by_tokens (.RatedSwapPool pool) amts rates fees =
        .ok (.RatedSwapPool pool,
          pool.predict_remove_rated_liquidity_by_tokens amts rates fees)) ∧
    (∀ (pool : SimplePool) (amts : List Nat) (degens : Option (List Nat)) (fees : AdminFees),
      Pool.predict_remove_degen_liquidity_by_tokens (.SimplePool pool) amts degens fees =
        .error .UnsupportedOperation) ∧
    (∀ (pool : StableSwapPool) (amts : List Nat) (degens : Option (List Nat)) (fees : AdminFees),
      Pool.predict_remove_degen_liquidity_by_tokens (.StableSwapPool pool) amts degens fees =
        .error .UnsupportedOperation) ∧
    (∀ (pool : RatedSwapPool) (amts : List Nat) (degens : Option (List Nat)) (fees : AdminFees),
      Pool.predict_remove_degen_liquidity_by_tokens (.RatedSwapPool pool) amts degens fees =
        .error .UnsupportedOperation) ∧
    (∀ (pool : DegenSwapPool) (amts : List Nat) (degens : Option (List Nat)) (fees : AdminFees),
      Pool.predict_remove_degen_liquidity_by_tokens (.DegenSwapPool pool) amts degens fees =
        .ok (.DegenSwapPool pool,
          pool.predict_remove_degen_liquidity_by_tokens amts degens fees)) ∧
    (∀ (pool : SimplePool) (tin : String) (ain : Nat) (tout : String)
      (rates : Option (List Nat)) (fees : AdminFees),
      Pool.get_rated_return (.SimplePool pool) tin ain tout rates fees =
        .error .UnsupportedOperation) ∧
    (∀ (pool : StableSwapPool) (tin : String) (ain : Nat) (tout : String)
      (rates : Option (List Nat)) (fees : AdminFees),
      Pool.get_rated_return (.StableSwapPool pool) tin ain tout rates fees =
        .error .UnsupportedOperation) ∧
    (∀ (pool : DegenSwapPool) (tin : String) (ain : Nat) (tout : String)
      (rates : Option (List Nat)) (fees : AdminFees),
      Pool.get_rated_return (.DegenSwapPool pool) tin ain tout rates fees =
        .error .UnsupportedOperation) ∧
    (∀ (pool : RatedSwapPool) (tin : String) (ain : Nat) (tout : String)
      (rates : Option (List Nat)) (fees : AdminFees),
      Pool.get_rated_return (.RatedSwapPool pool) tin ain tout rates fees =
        .ok (.RatedSwapPool pool, pool.get_rated_return tin ain tout rates fees)) ∧
    (∀ (pool : SimplePool) (tin : String) (ain : Nat) (tout : String)
      (degens : Option (List Nat)) (fees : AdminFees),
      Pool.get_degen_return (.SimplePool pool) tin ain tout degens fees =
        .error .UnsupportedOperation) ∧
    (∀ (pool : StableSwapPool) (tin : String) (ain : Nat) (tout : String)
      (degens : Option (List Nat)) (fees : AdminFees),
      Pool.get_degen_return (.StableSwapPool pool) tin ain tout degens fees =
        .error .UnsupportedOperation) ∧
    (∀ (pool : RatedSwapPool) (tin : String) (ain : Nat) (tout : String)
      (degens : Option (List Nat)) (fees : AdminFees),
      Pool.get_degen_return (.RatedSwapPool pool) tin ain tout degens fees =
        .error .UnsupportedOperation) ∧
    (∀ (pool : DegenSwapPool) (tin : String) (ain : Nat) (tout : String)
      (degens : Option (List Nat)) (fees : AdminFees),
      Pool.get_degen_return (.DegenSwapPool pool) tin ain tout degens fees =
        .ok (.DegenSwapPool pool, pool.get_degen_return tin ain tout degens fees)) :=
  ⟨fun _ _ _ _ => rfl, fun _ _ _ _ => rfl, fun _ _ _ _ => rfl, fun _ _ _ _ => rfl,
    fun _ _ _ _ => rfl, fun _ _ _ _ => rfl, fun _ _ _ _ => rfl, fun _ _ _ _ => rfl,
    fun _ _ _ _ => rfl, fun _ _ _ _ => rfl, fun _ _ _ _ => rfl, fun _ _ _ _ => rfl,
    fun _ _ _ _ => rfl, fun _ _ _ _ => rfl, fun _ _ _ _ => rfl, fun _ _ _ _ => rfl,
    fun _ _ _ _ _ _ => rfl, fun _ _ _ _ _ _ => rfl, fun _ _ _ _ _ _ => rfl,
    fun _ _ _ _ _ _ => rfl, fun _ _ _ _ _ _ => rfl, fun _ _ _ _ _ _ => rfl,
    fun _ _ _ _ _ _ => rfl, fun _ _ _ _ _ _ => rfl⟩
